import Mathlib

/-!
Verification of the `usaddress-scourgify` address-normalization library.

The Python sources (`scourgify/cleaning.py`, `scourgify/validations.py`,
`scourgify/normalize.py`, `scourgify/exceptions.py`) are shallowly embedded
below.  Pure functions become Lean functions on `String` / `List Char`;
the external `usaddress` tagger is an explicit function parameter; Python
exceptions become `Except` results; the process-global lookup tables from
`address_constants.py` (a module whose source is not part of the snapshot)
become an explicit `Tables` parameter, with a small instance modelled from
the spec and the repository's tests.

Modelling notes, used throughout:
* the embedding is exact for ASCII text (the working alphabet of US
  addresses): `unicodedata.normalize('NFKD', ·)` and the fraction-slash
  translation are the identity on ASCII, `str.upper`/`str.isalnum` agree
  with their ASCII restrictions, and the `unicodedata.category` table is
  reproduced for the ASCII range (all non-ASCII characters are treated as
  category "Cn", which the cleaning stage strips);
* Python recursion is made total with an explicit fuel argument; a result
  of `none` means the fuel was exhausted (the Python code would still be
  recursing);
* Python truthiness of an optional string (`None` and `''` are falsy) is
  `truthyO`.
-/

namespace Scourgify

/-! ## Basic character utilities (ASCII model) -/

/-- ASCII whitespace recognised by Python's `str.split()` / `str.strip()`. -/
def isWsChar (c : Char) : Bool :=
  c.toNat = 32 || c.toNat = 9 || c.toNat = 10 || c.toNat = 11 || c.toNat = 12 || c.toNat = 13

/-- ASCII decimal digit. -/
def isDigitChar (c : Char) : Bool :=
  48 ≤ c.toNat && c.toNat ≤ 57

/-- ASCII lowercase letter. -/
def isLowerChar (c : Char) : Bool :=
  97 ≤ c.toNat && c.toNat ≤ 122

/-- ASCII uppercase letter. -/
def isUpperChar (c : Char) : Bool :=
  65 ≤ c.toNat && c.toNat ≤ 90

/-- ASCII letter or digit: the ASCII restriction of Python `str.isalnum`. -/
def isAlnumChar (c : Char) : Bool :=
  isDigitChar c || isLowerChar c || isUpperChar c

/-- The ASCII restriction of Python `str.upper` on a single character. -/
def pyUpperChar (c : Char) : Char :=
  if isLowerChar c then Char.ofNat (c.toNat - 32) else c

/-- Python `str.upper` (ASCII model): uppercase every character. -/
def pyUpper (l : List Char) : List Char :=
  l.map pyUpperChar

/-- `unicodedata.category` for the ASCII range (non-ASCII characters are
reported as "Cn"; the cleaning stage strips them, see the module comment). -/
def unicodeCategory (c : Char) : String :=
  let n := c.toNat
  if n ≥ 128 then "Cn"
  else if n ≤ 31 || n = 127 then "Cc"
  else if n = 32 then "Zs"
  else if isDigitChar c then "Nd"
  else if isLowerChar c then "Ll"
  else if isUpperChar c then "Lu"
  else if n = 40 || n = 91 || n = 123 then "Ps"       -- ( [ {
  else if n = 41 || n = 93 || n = 125 then "Pe"       -- ) ] }
  else if n = 45 then "Pd"                            -- -
  else if n = 95 then "Pc"                            -- _
  else if n = 36 then "Sc"                            -- dollar
  else if n = 43 || n = 60 || n = 61 || n = 62 || n = 124 || n = 126 then "Sm"
  else if n = 94 || n = 96 then "Sk"                  -- caret, grave
  else "Po"

/-- `str.startswith` against a tuple of category prefixes, as used by
`clean_upper`: does the category string start with any listed prefix? -/
def categoryMatches (cat : String) (cats : List String) : Bool :=
  cats.any fun p => p.data.isPrefixOf cat.data

/-! ## Basic list-of-characters utilities -/

/-- Auxiliary accumulator-based splitter for `splitWs`. -/
def splitWsAux : List Char → List Char → List (List Char)
  | [], acc => if acc.isEmpty then [] else [acc.reverse]
  | c :: rest, acc =>
    if isWsChar c then
      if acc.isEmpty then splitWsAux rest []
      else acc.reverse :: splitWsAux rest []
    else splitWsAux rest (c :: acc)

/-- Python `str.split()` (no argument): split on runs of whitespace,
dropping empty pieces. -/
def splitWs (l : List Char) : List (List Char) :=
  splitWsAux l []

/-- Join with a separator; `intercalate`, kept as a local structural
definition so every use reduces in the kernel. -/
def joinSep (sep : List Char) : List (List Char) → List Char
  | [] => []
  | [w] => w
  | w :: ws => w ++ sep ++ joinSep sep ws

/-- Python `pat in s` substring containment on character lists. -/
def containsSub (s pat : List Char) : Bool :=
  pat.isPrefixOf s ||
    match s with
    | [] => false
    | _ :: t => containsSub t pat

/-- Fuel-indexed worker for `replaceAll`. -/
def replaceAllAux : Nat → List Char → List Char → List Char → List Char
  | 0, s, _, _ => s
  | fuel + 1, s, pat, rep =>
    match s with
    | [] => []
    | c :: rest =>
      if pat ≠ [] && pat.isPrefixOf s then
        rep ++ replaceAllAux fuel (s.drop pat.length) pat rep
      else
        c :: replaceAllAux fuel rest pat rep

/-- Python `str.replace(pat, rep)`: replace every (non-overlapping,
leftmost-first) occurrence.  The degenerate empty pattern (unused by the
library) is modelled as the identity. -/
def replaceAll (s pat rep : List Char) : List Char :=
  replaceAllAux s.length s pat rep

/-- Python `str.strip()` (ASCII whitespace model). -/
def trimWs (l : List Char) : List Char :=
  ((l.dropWhile isWsChar).reverse.dropWhile isWsChar).reverse

/-- Python `str.zfill(width)`: left-pad with zeros to `width`, keeping a
leading sign in front of the padding. -/
def zfill (width : Nat) (l : List Char) : List Char :=
  if width ≤ l.length then l
  else
    match l with
    | '+' :: rest => '+' :: (List.replicate (width - l.length) '0' ++ rest)
    | '-' :: rest => '-' :: (List.replicate (width - l.length) '0' ++ rest)
    | _ => List.replicate (width - l.length) '0' ++ l

/-- Python `list.insert(i, x)` (indices beyond the end append). -/
def listInsertAt : Nat → α → List α → List α
  | 0, x, l => x :: l
  | _ + 1, x, [] => [x]
  | n + 1, x, c :: t => c :: listInsertAt n x t

/-- Numeric value of a list of ASCII digits. -/
def digitsToNat (l : List Char) : Nat :=
  l.foldl (fun a c => a * 10 + (c.toNat - 48)) 0

/-- Python `int(str)` as a partial parser: optional surrounding whitespace,
optional single sign, then a non-empty run of decimal digits.  (The
PEP-515 underscore notation is not modelled; it cannot occur in address
component values.) -/
def pyIntParse (l : List Char) : Option Int :=
  let l := trimWs l
  match l with
  | '+' :: rest =>
    if rest ≠ [] && rest.all isDigitChar then some (Int.ofNat (digitsToNat rest)) else none
  | '-' :: rest =>
    if rest ≠ [] && rest.all isDigitChar then some (-(Int.ofNat (digitsToNat rest))) else none
  | _ =>
    if l ≠ [] && l.all isDigitChar then some (Int.ofNat (digitsToNat l)) else none

/-- Fuel-indexed little-endian decimal digits (the fuel is an upper bound
on the number, so `toDigitsRev` below is total and kernel-reducible). -/
def toDigitsAux : Nat → Nat → List Nat
  | _, 0 => []
  | 0, _ + 1 => []
  | fuel + 1, n + 1 => ((n + 1) % 10) :: toDigitsAux fuel ((n + 1) / 10)

/-- Little-endian decimal digits of `n` (empty for `0`). -/
def toDigitsRev (n : Nat) : List Nat :=
  toDigitsAux n n

/-- Decimal character string of a natural number, as Python `str(n)`. -/
def natToChars (n : Nat) : List Char :=
  if n = 0 then ['0']
  else ((toDigitsRev n).map fun d => Char.ofNat (48 + d)).reverse

/-- Decimal character string of an integer, as Python `str(i)`. -/
def intToChars (i : Int) : List Char :=
  if i < 0 then '-' :: natToChars i.natAbs else natToChars i.toNat

/-- Python truthiness of an optional string: `None` and `''` are falsy. -/
def truthyO : Option String → Bool
  | none => false
  | some s => !s.data.isEmpty

/-! ## `get_ordinal_indicator` (normalize.py lines 658-682) -/

/-- Core of `get_ordinal_indicator`, operating on the decimal character
string `str_num = str(number)` exactly as the Python source does:
inspect the last character and, when at least two digits are present,
the last two characters. -/
def get_ordinal_of_chars (str_num : List Char) : String :=
  let digits := str_num.length
  let last := str_num.getLastD ' '
  let lastTwo := str_num.drop (digits - 2)
  if last = '1' ∧ ¬(2 ≤ digits ∧ lastTwo = ['1', '1']) then "st"
  else if last = '2' ∧ ¬(2 ≤ digits ∧ lastTwo = ['1', '2']) then "nd"
  else if last = '3' ∧ ¬(2 ≤ digits ∧ lastTwo = ['1', '3']) then "rd"
  else "th"

/-- `get_ordinal_indicator(number)` from normalize.py: the ordinal suffix
(`st`/`nd`/`rd`/`th`) appropriate to `number`. -/
def get_ordinal_indicator (number : Nat) : String :=
  get_ordinal_of_chars (natToChars number)

/-! ## Cleaning stage (cleaning.py) -/

/-- `ALLOWED_CHARS` from cleaning.py: ordinals of `# & - . /`. -/
def ALLOWED_CHARS : List Nat := [35, 38, 45, 46, 47]

/-- `PRECLEAN_EXCLUDE` from cleaning.py: ordinals of `( ) ,`. -/
def PRECLEAN_EXCLUDE : List Nat := [40, 41, 44]

/-- `EXCLUDE_ALL` from cleaning.py. -/
def EXCLUDE_ALL : List Nat := ALLOWED_CHARS ++ PRECLEAN_EXCLUDE

/-- `STRIP_CHAR_CATS` from cleaning.py. -/
def STRIP_CHAR_CATS : List String :=
  ["M", "S", "C", "Nl", "No", "Pc", "Ps", "Pe", "Pi", "Pf", "Po"]

/-- `STRIP_PUNC_CATS` from cleaning.py. -/
def STRIP_PUNC_CATS : List String := ["Z", "Pd"]

/-- `STRIP_ALL_CATS` from cleaning.py. -/
def STRIP_ALL_CATS : List String := STRIP_CHAR_CATS ++ STRIP_PUNC_CATS

/-- Core of `clean_upper` (cleaning.py lines 191-238) on character lists.
The NFKD normalization and the fraction-slash translation performed by the
Python code are the identity on the ASCII model.  The Python per-character
loop removes every occurrence of each character whose category matches
`removal_cats` (unless its ordinal is excluded) and turns every dash-family
(`Pd`) character into a plain hyphen, which is exactly a `filterMap`; the
loop is skipped entirely when the text minus commas, ampersands and spaces
is non-empty and alphanumeric. -/
def clean_upper_strip (text : List Char) (exclude : List Nat)
    (removal_cats : List String) : List Char :=
  let alnum_text := text.filter fun c => c.toNat ≠ 44 && c.toNat ≠ 38
  let check := alnum_text.filter fun c => c.toNat ≠ 32
  let alnum_ok := !check.isEmpty && check.all isAlnumChar
  if alnum_ok then text
  else
    text.filterMap fun c =>
      if categoryMatches (unicodeCategory c) removal_cats && !(exclude.contains c.toNat)
      then none
      else if categoryMatches (unicodeCategory c) ["Pd"] then some '-'
      else some c

/-- The tail of `clean_upper`: after the character stripping, whitespace
runs are collapsed (`join_char.join(text.split())`) and the result is
uppercased. -/
def clean_upper_chars (text : List Char) (exclude : List Nat) (removal_cats : List String)
    (strip_spaces : Bool) : List Char :=
  let text := clean_upper_strip text exclude removal_cats
  let join_char := if strip_spaces then [] else [' ']
  (joinSep join_char (splitWs text)).map pyUpperChar

/-- `clean_upper(text, exclude, removal_cats, strip_spaces)` from cleaning.py. -/
def clean_upper (text : String) (exclude : List Nat) (removal_cats : List String)
    (strip_spaces : Bool) : String :=
  String.mk (clean_upper_chars text.data exclude removal_cats strip_spaces)

/-- `clean_period_char` (cleaning.py lines 241-250): remove every period
that is not immediately followed by a digit (`re.sub(r'\.(?!\d)', '', ·)`). -/
def clean_period_char_chars : List Char → List Char
  | [] => []
  | c :: rest =>
    if c = '.' then
      if (match rest with | d :: _ => isDigitChar d | [] => false)
      then '.' :: clean_period_char_chars rest
      else clean_period_char_chars rest
    else c :: clean_period_char_chars rest

/-- `post_clean_addr_str` (cleaning.py lines 120-135) on a plain string:
falsy strings are returned unchanged, otherwise `clean_upper` with the
post-processing allow-list. -/
def post_clean_addr_str (addr_str : String) : String :=
  if addr_str.data.isEmpty then addr_str
  else clean_upper addr_str ALLOWED_CHARS STRIP_CHAR_CATS false

/-- `post_clean_addr_str` on an optional (possibly `None`) string. -/
def post_clean_opt : Option String → Option String
  | none => none
  | some s => some (post_clean_addr_str s)

/-- Replace the first occurrence of `k` in a token list by `v`
(`split_addr[split_addr.index(k)] = v`). -/
def replaceFirstToken : List String → String → String → List String
  | [], _, _ => []
  | x :: t, k, v => if x = k then v :: t else x :: replaceFirstToken t k v

/-- The whitespace-delimited tokens of an address string, Python
`addr_str.split()`. -/
def addrTokens (s : String) : List String :=
  (splitWs s.data).map String.mk

/-- `clean_ambiguous_street_types` (cleaning.py lines 96-117), with the
`PROBLEM_ST_TYPE_ABBRVS` table passed explicitly: the first table key
appearing as a whole whitespace-delimited token has its first occurrence
replaced by the table value, after which the loop breaks. -/
def clean_ambiguous_street_types (tbl : List (String × String)) (addr_str : String) : String :=
  if addr_str.data.isEmpty then addr_str
  else
    match tbl.find? (fun kv => (addrTokens addr_str).any fun t => t = kv.1) with
    | none => addr_str
    | some kv =>
      String.mk
        (joinSep [' '] ((replaceFirstToken (addrTokens addr_str) kv.1 kv.2).map String.data))

/-- The global lookup tables of `address_constants.py`, passed explicitly.
The module's source is not part of the snapshot, so the tables are
parameters; a small concrete instance modelled from the spec and the
repository's tests is `modelTables` below. -/
structure Tables where
  ABNORMAL_OCCUPANCY_ABBRVS : List String
  OCCUPANCY_TYPE_ABBREVIATIONS : List (String × String)
  STREET_TYPE_ABBREVIATIONS : List (String × String)
  DIRECTIONAL_REPLACEMENTS : List (String × String)
  STATE_ABBREVIATIONS : List (String × String)
  PROBLEM_ST_TYPE_ABBRVS : List (String × String)
  KNOWN_ODDITIES : List (String × String)

/-- Modelled from the spec: the contents of the (absent) module
`address_constants.py`.  `UN` as an abnormal occupancy abbreviation and
`CT → COURT` as a problem street type come from the spec's scenarios and
the docstrings/tests of the repository; the occupancy, street-type,
directional and state tables hold representative USPS Pub. 28 entries
used by the spec's examples (`SUITE → STE`, `APARTMENT → APT`,
`STREET → ST`, `SOUTH WEST → SW`, `ORE → OR`). -/
def modelTables : Tables where
  ABNORMAL_OCCUPANCY_ABBRVS := ["UN"]
  OCCUPANCY_TYPE_ABBREVIATIONS :=
    [("APARTMENT", "APT"), ("BUILDING", "BLDG"), ("SUITE", "STE"), ("UNIT", "UNIT")]
  STREET_TYPE_ABBREVIATIONS := [("STREET", "ST"), ("AVENUE", "AVE")]
  DIRECTIONAL_REPLACEMENTS :=
    [("NORTH", "N"), ("SOUTH", "S"), ("EAST", "E"), ("WEST", "W"),
     ("NORTHEAST", "NE"), ("NORTHWEST", "NW"), ("SOUTHEAST", "SE"), ("SOUTHWEST", "SW")]
  STATE_ABBREVIATIONS := [("OREGON", "OR"), ("ORE", "OR"), ("WASHINGTON", "WA")]
  PROBLEM_ST_TYPE_ABBRVS := [("CT", "COURT")]
  KNOWN_ODDITIES := []

/-- `pre_clean_addr_str` (cleaning.py lines 50-93): replace known
oddities, drop non-decimal periods, strip special characters with the
pre-clean allow-list, and (when a state other than CT is supplied) expand
ambiguous two-letter street types. -/
def pre_clean_addr_str (tb : Tables) (addr_str : String) (state : Option String) : String :=
  let addr_str :=
    if tb.KNOWN_ODDITIES.any (fun kv => containsSub addr_str.data kv.1.data) then
      tb.KNOWN_ODDITIES.foldl
        (fun s kv => String.mk (replaceAll s.data kv.1.data kv.2.data)) addr_str
    else addr_str
  let addr_str :=
    if containsSub addr_str.data ['.'] then String.mk (clean_period_char_chars addr_str.data)
    else addr_str
  let addr_str := clean_upper addr_str EXCLUDE_ALL STRIP_CHAR_CATS false
  match state with
  | some st =>
    if st ≠ "" ∧ st ≠ "CT" then clean_ambiguous_street_types tb.PROBLEM_ST_TYPE_ABBRVS addr_str
    else addr_str
  | none => addr_str

/-! ## Data model and errors (normalize.py / exceptions.py) -/

/-- The five-field address record (the Python address dict with keys
`address_line_1`, `address_line_2`, `city`, `state`, `postal_code`;
`none` is Python `None`). -/
structure AddrRec where
  address_line_1 : Option String
  address_line_2 : Option String
  city : Option String
  state : Option String
  postal_code : Option String
deriving DecidableEq

/-- The exceptions the pipeline can raise.  `ambiguous`, `unparseable`,
`incomplete` and `validation` are the four `AddressNormalizationError`
kinds of exceptions.py; `valueError` and `typeError` are the raw Python
`ValueError` (from `list.index`) and `TypeError` (from `re.findall` on
`None`), which are *not* `AddressNormalizationError`s. -/
inductive NormError where
  | ambiguous
  | unparseable (partialRecord : AddrRec)
  | incomplete
  | validation
  | valueError
  | typeError
deriving DecidableEq

/-- Failures of `parse_address_string`: the tagger's
`usaddress.RepeatedLabelError`, or the `AmbiguousAddressError` raised on
ambiguous tag sets. -/
inductive ParseFail where
  | repeatedLabel
  | ambiguous
deriving DecidableEq

/-- A tagged address: the ordered component mapping of `usaddress.tag`. -/
abbrev Parsed := List (String × String)

/-- The result of the external `usaddress.tag` collaborator. -/
inductive TagResult where
  | tagged (parsed : Parsed) (addrType : String)
  | repeatedLabelError

/-- The external tagger as an opaque function. -/
abbrev Tagger := String → TagResult

/-- Python `dict.get` on the ordered mapping: value of the first entry
with the given key. -/
def dget : Parsed → String → Option String
  | [], _ => none
  | (k, v) :: t, key => if k = key then some v else dget t key

/-- Python `dict.update({k: v})` on the ordered mapping: overwrite the
value in place if the key is present, else append the entry at the end. -/
def dupdate : Parsed → String → String → Parsed
  | [], k, v => [(k, v)]
  | (k', v') :: t, k, v => if k' = k then (k, v) :: t else (k', v') :: dupdate t k v

/-- Python `dict.pop(k, None)` / `del dict[k]`: drop the entry with the
given key (the first, which in a dict is the only one). -/
def dpop (m : Parsed) (key : String) : Parsed :=
  m.eraseP fun p => p.1 = key

/-! ## Validations (validations.py) -/

/-- `validate_address_components` (validations.py lines 49-81): line 1
must be truthy; locality requires postal code and city and state in
strict mode, postal code or (city and state) otherwise. -/
def validate_address_components (addr_dict : AddrRec) (strict : Bool) :
    Except NormError AddrRec :=
  let locality :=
    if strict then
      truthyO addr_dict.postal_code && truthyO addr_dict.city && truthyO addr_dict.state
    else
      truthyO addr_dict.postal_code || (truthyO addr_dict.city && truthyO addr_dict.state)
  if !truthyO addr_dict.address_line_1 then .error .incomplete
  else if !locality then .error .incomplete
  else .ok addr_dict

/-- `validate_us_postal_code_format` (validations.py lines 84-126):
post-clean the code, split on hyphens, require every group to parse as an
int; hyphenated codes must have exactly two groups and at most nine
digits (each group is then zero-filled to 5 and 4); nine plain digits are
split 5-4; more than five plain digits is an error; otherwise the code is
zero-filled to five digits. -/
def validate_us_postal_code_format (postal_code : String) : Except NormError String :=
  let postal_code := (post_clean_addr_str postal_code).data
  let plus_four_code := postal_code.splitOn '-'
  let error := plus_four_code.any fun code => (pyIntParse code).isNone
  if error then .error .validation
  else if containsSub postal_code ['-'] then
    if (postal_code.filter fun c => c ≠ '-').length > 9 then .error .validation
    else match plus_four_code with
      | [p0, p1] => .ok (String.mk (zfill 5 p0 ++ '-' :: zfill 4 p1))
      | _ => .error .validation
  else if postal_code.length = 9 then
    .ok (String.mk (postal_code.take 5 ++ '-' :: postal_code.drop 5))
  else if postal_code.length > 5 then .error .validation
  else .ok (String.mk (zfill 5 postal_code))

/-- Does `line1` still contain a parenthesis group, i.e. does the regex
`\((.+?)\)` match: an opening parenthesis with a closing parenthesis at
least two positions later? -/
def hasParenGroup : List Char → Bool
  | [] => false
  | c :: rest =>
    (c = '(' && (rest.drop 1).any fun d => d = ')') || hasParenGroup rest

/-- `validate_parens_groups_parsed` (validations.py lines 129-147).  The
Python code passes `line1` straight into `re.findall`; a `None` line 1
raises `TypeError` there. -/
def validate_parens_groups_parsed : Option String → Except NormError String
  | none => .error .typeError
  | some line1 =>
    if hasParenGroup line1.data then .error .ambiguous else .ok line1

/-! ## Normalization pipeline (normalize.py) -/

/-- `LINE1_USADDRESS_LABELS` from normalize.py (the duplicate
`IntersectionSeparator` entry of the source is kept). -/
def LINE1_USADDRESS_LABELS : List String :=
  ["AddressNumber", "StreetName", "AddressNumberPrefix", "AddressNumberSuffix",
   "StreetNamePreDirectional", "StreetNamePostDirectional", "StreetNamePreModifier",
   "StreetNamePostType", "StreetNamePreType", "IntersectionSeparator",
   "SecondStreetNamePreDirectional", "SecondStreetNamePostDirectional",
   "SecondStreetNamePreModifier", "SecondStreetNamePostType", "SecondStreetNamePreType",
   "LandmarkName", "CornerOf", "IntersectionSeparator", "BuildingName"]

/-- `LINE2_USADDRESS_LABELS` from normalize.py. -/
def LINE2_USADDRESS_LABELS : List String :=
  ["OccupancyType", "OccupancyIdentifier", "SubaddressIdentifier", "SubaddressType"]

/-- `LAST_LINE_LABELS` from normalize.py. -/
def LAST_LINE_LABELS : List String := ["PlaceName", "StateName", "ZipCode"]

/-- `AMBIGUOUS_LABELS` from normalize.py. -/
def AMBIGUOUS_LABELS : List String :=
  ["Recipient", "USPSBoxType", "USPSBoxID", "USPSBoxGroupType", "USPSBoxGroupID", "NotAddress"]

/-- Modelled from the spec: `ADDRESS_KEYS` of the absent module
`address_constants.py` — the five canonical record keys in field order. -/
def ADDRESS_KEYS : List String :=
  ["address_line_1", "address_line_2", "city", "state", "postal_code"]

/-- Python `s.startswith(pre)`. -/
def pyStartsWith (s pre : String) : Bool :=
  pre.data.isPrefixOf s.data

/-- `normalize_state` (normalize.py lines 555-569): look the uppercased
state up in `STATE_ABBREVIATIONS`; fall back to the original value.
Falsy states pass through unchanged. -/
def normalize_state (tb : Tables) : Option String → Option String
  | none => none
  | some state =>
    if state = "" then some ""
    else
      match dget tb.STATE_ABBREVIATIONS (String.mk (pyUpper state.data)) with
      | some abbrv => if abbrv ≠ "" then some abbrv else some state
      | none => some state

/-- `get_parsed_values` (normalize.py lines 389-422): post-clean both the
parsed value for `val_label` and the caller-supplied value; two distinct
non-null values raise `AmbiguousAddressError`, otherwise the unique
non-null value (or `None`) is returned. -/
def get_parsed_values (parsed_addr : Parsed) (orig_val : Option String) (val_label : String)
    (orig_addr_str : String) : Except NormError (Option String) :=
  -- `orig_addr_str` is only carried into the raised error in Python
  match post_clean_opt orig_val, post_clean_opt (dget parsed_addr val_label) with
  | some a, some b => if a = b then .ok (some a) else .error .ambiguous
  | some a, none => .ok (some a)
  | none, some b => .ok (some b)
  | none, none => .ok none

/-- One `street_tags` iteration of `normalize_numbered_streets`
(normalize.py lines 443-464): when both the street tag and its post-type
tag are present and the street name parses as an int, append the ordinal
indicator to the (re-formatted) number. -/
def normalize_numbered_street_tag (parsed : Parsed) (tag : String) : Parsed :=
  let post_type_tag := tag ++ "PostType"
  if (dget parsed tag).isSome && (dget parsed post_type_tag).isSome then
    match pyIntParse ((dget parsed tag).getD "").data with
    | some cardinal =>
      dupdate parsed tag
        (String.mk (intToChars cardinal ++ (get_ordinal_of_chars (intToChars cardinal)).data))
    | none => parsed
  else parsed

/-- `normalize_numbered_streets`: apply the rule for `StreetName`, then
for `SecondStreetName`. -/
def normalize_numbered_streets (parsed : Parsed) : Parsed :=
  normalize_numbered_street_tag (normalize_numbered_street_tag parsed "StreetName")
    "SecondStreetName"

/-- `normalize_directionals` (normalize.py lines 467-490): for every tag
containing "Directional", strip spacing/punctuation and uppercase the
value, and replace it by its canonical abbreviation when the table knows
it. -/
def normalize_directionals (tb : Tables) (parsed : Parsed) : Parsed :=
  parsed.map fun p =>
    if containsSub p.1.data "Directional".data then
      let dir_str := clean_upper p.2 [] STRIP_ALL_CATS true
      match dget tb.DIRECTIONAL_REPLACEMENTS dir_str with
      | some r => (p.1, r)
      | none => p
    else p

/-- `normalize_street_types` (normalize.py lines 493-515): for every tag
containing both "Street" and "Type", replace the value by its Pub.-28
abbreviation when found (truthy) in the table. -/
def normalize_street_types (tb : Tables) (parsed : Parsed) : Parsed :=
  parsed.map fun p =>
    if containsSub p.1.data "Street".data && containsSub p.1.data "Type".data then
      match dget tb.STREET_TYPE_ABBREVIATIONS p.2 with
      | some abbr => if abbr ≠ "" then (p.1, abbr) else p
      | none => p
    else p

/-- The "recognized occupancy type" of a parsed mapping: the popped
`OccupancyType` value if it is already one of the table's abbreviations,
else its table lookup (normalize.py lines 537-542). -/
def recognizedOccupancyAbbr (tbl : List (String × String)) (parsed : Parsed) : Option String :=
  match dget parsed "OccupancyType" with
  | none => none
  | some t => if (tbl.map Prod.snd).any (fun v => v = t) then some t else dget tbl t

/-- `normalize_occupancy_type` (normalize.py lines 518-552) with the
`OCCUPANCY_TYPE_ABBREVIATIONS` table passed explicitly.  Pops the
occupancy type, resolves its abbreviation, defaults it to `default`
(`'UNIT'`) when a non-`#` occupancy identifier is present without a
recognized type, and re-inserts the abbreviation immediately before the
first list entry equal to `('OccupancyIdentifier', occupancy_id)`.  When
the abbreviation is truthy but no such entry exists — in particular when
no `OccupancyIdentifier` key is present at all, so that the Python code
searches for `('OccupancyIdentifier', None)` — `list.index` raises
`ValueError`.  This is the `if occupancy_type_abbr:` tail of
`normalize_occupancy_type` (normalize.py lines 547-552), split out as a
named step. -/
def occupancy_insert (parsed_addr : Parsed) (occupancy_id : Option String)
    (occupancy_type_abbr : Option String) : Except NormError Parsed :=
  match occupancy_type_abbr with
  | some abbr =>
    if abbr ≠ "" then
      match occupancy_id with
      | some oid =>
        match parsed_addr.findIdx? (fun p => p = ("OccupancyIdentifier", oid)) with
        | some i => .ok (listInsertAt i ("OccupancyType", abbr) parsed_addr)
        | none => .error .valueError
      | none => .error .valueError
    else .ok parsed_addr
  | none => .ok parsed_addr

/-- `normalize_occupancy_type` (normalize.py lines 518-552) with the
`OCCUPANCY_TYPE_ABBREVIATIONS` table passed explicitly: pop the occupancy
type, resolve its abbreviation, default it to `default` (`'UNIT'`) when a
non-`#` occupancy identifier is present without a recognized type, then
run `occupancy_insert`. -/
def normalize_occupancy_type (tbl : List (String × String)) (parsed_addr : Parsed)
    (default : Option String) : Except NormError Parsed :=
  let dflt := default.getD "UNIT"
  let occupancy_type_abbr := recognizedOccupancyAbbr tbl parsed_addr
  let parsed_addr := dpop parsed_addr "OccupancyType"
  let occupancy_id := dget parsed_addr "OccupancyIdentifier"
  let occupancy_type_abbr :=
    if (truthyO occupancy_id
          && !(match occupancy_id with | some oid => pyStartsWith oid "#" | none => false))
        && !truthyO occupancy_type_abbr
    then some dflt else occupancy_type_abbr
  occupancy_insert parsed_addr occupancy_id occupancy_type_abbr

/-- `normalize_address_components` (normalize.py lines 425-440): the four
rules in their fixed order. -/
def normalize_address_components (tb : Tables) (parsed : Parsed) : Except NormError Parsed :=
  let parsed := normalize_numbered_streets parsed
  let parsed := normalize_directionals tb parsed
  let parsed := normalize_street_types tb parsed
  normalize_occupancy_type tb.OCCUPANCY_TYPE_ABBREVIATIONS parsed none

/-- `get_normalized_line_segment` (normalize.py lines 572-585): the
values whose label belongs to `line_labels`, joined by single spaces (or
`None` when there are none), post-cleaned. -/
def get_normalized_line_segment (parsed : Parsed) (line_labels : List String) : Option String :=
  let line_elems := parsed.filterMap fun p => if p.1 ∈ line_labels then some p.2 else none
  let line_str :=
    if line_elems.isEmpty then none
    else some (String.mk (joinSep [' '] (line_elems.map String.data)))
  post_clean_opt line_str

/-- Field access of the address dict by canonical key name. -/
def getField (r : AddrRec) (key : String) : Option String :=
  if key = "address_line_1" then r.address_line_1
  else if key = "address_line_2" then r.address_line_2
  else if key = "city" then r.city
  else if key = "state" then r.state
  else if key = "postal_code" then r.postal_code
  else none

/-- `get_addr_line_str` (normalize.py lines 588-614): join the truthy
values of `addr_parts` with `', '` or `' '`. -/
def get_addr_line_str (addr_dict : AddrRec) (addr_parts : List String)
    (comma_separate : Bool) : String :=
  let separator := if comma_separate then [',', ' '] else [' ']
  String.mk (joinSep separator
    ((addr_parts.filterMap fun elem =>
        match getField addr_dict elem with
        | some v => if v ≠ "" then some v else none
        | none => none).map String.data))

/-- `format_address_record` (normalize.py lines 617-625): the truthy
fields in `ADDRESS_KEYS` order joined by `', '`. -/
def format_address_record (address : AddrRec) : String :=
  String.mk (joinSep [',', ' ']
    ((ADDRESS_KEYS.filterMap fun field =>
        match getField address field with
        | some v => if v ≠ "" then some v else none
        | none => none).map String.data))

/-- `handle_abnormal_occupancy` (normalize.py lines 333-386), with the
recursive re-tag packaged as the `recurse` argument (instantiated with
`parse_address_string` at one less fuel).  Note the Python loop over
`occupancy_identifier_keys` executes `break` in its `except KeyError`
arm, so only `OccupancyIdentifier` is ever consulted. -/
def handle_abnormal_occupancy (tb : Tables)
    (recurse : String → Option (Except ParseFail Parsed))
    (parsed_addr : Parsed) (addr_str : String) : Option (Except ParseFail Parsed) :=
  match dget parsed_addr "StreetNamePostType" with
  | some street_type =>
    if tb.ABNORMAL_OCCUPANCY_ABBRVS.any (fun a => a = street_type) then
      let occupancy_type :=
        match dget parsed_addr "OccupancyType" with
        | some t => some t
        | none => dget parsed_addr "SubaddressType"
      let occupancy := dget parsed_addr "OccupancyIdentifier"
      if truthyO occupancy && !truthyO occupancy_type then
        match occupancy with
        | some occ =>
          if containsSub occ.data street_type.data then
            let occupancy2 := String.mk (trimWs (replaceAll occ.data street_type.data []))
            let parsed2 := parsed_addr.eraseP fun p => p.1 = "OccupancyIdentifier"
            some (.ok (dupdate (dupdate parsed2 "OccupancyType" street_type)
              "OccupancyIdentifier" occupancy2))
          else
            let line2 := String.mk (street_type.data ++ ' ' :: occ.data)
            let addr_str2 := String.mk (replaceAll addr_str.data line2.data [])
            match recurse addr_str2 with
            | none => none
            | some (.error e) => some (.error e)
            | some (.ok parsedN) =>
              some (.ok (dupdate (dupdate parsedN "OccupancyType" street_type)
                "OccupancyIdentifier" occ))
        | none => some (.ok parsed_addr)
      else some (.ok parsed_addr)
    else some (.ok parsed_addr)
  | none => some (.ok parsed_addr)

/-- `parse_address_string` (normalize.py lines 306-330): call the tagger,
raise `AmbiguousAddressError` on an "Ambiguous" address type or any
ambiguous label, then run the abnormal-occupancy correction (whose
re-tag path recurses; the fuel bounds that recursion). -/
def parse_address_string (tb : Tables) (T : Tagger) :
    Nat → String → Option (Except ParseFail Parsed)
  | 0, _ => none
  | fuel + 1, addr_str =>
    match T addr_str with
    | .repeatedLabelError => some (.error .repeatedLabel)
    | .tagged parsed_addr addrType =>
      if addrType = "Ambiguous"
          || parsed_addr.any (fun p => AMBIGUOUS_LABELS.any fun l => l = p.1) then
        some (.error .ambiguous)
      else
        handle_abnormal_occupancy tb (fun s => parse_address_string tb T fuel s)
          parsed_addr addr_str

/-- The `if parsed_addr and not parsed_addr.get('StreetName')` retry of
`normalize_addr_str` (normalize.py lines 209-219): when the first parse
is truthy but has no truthy `StreetName`, re-tag the comma-formatted
known fields once.  `none` is fuel exhaustion; `some none` is "re-parse
raised, `parsed_addr = None` and `error` set"; `some (some p)` is the
parse to continue with. -/
def street_name_reparse (tb : Tables) (T : Tagger) (fuel : Nat) (addr_str : String)
    (line2 city state zipcode : Option String) (parsed0 : Parsed) : Option (Option Parsed) :=
  if !parsed0.isEmpty && !truthyO (dget parsed0 "StreetName") then
    match parse_address_string tb T fuel
        (format_address_record ⟨some addr_str, line2, city, state, zipcode⟩) with
    | none => none
    | some (.error _e) => some none
    | some (.ok p2) => some (some p2)
  else some (some parsed0)

/-- The `if parsed_addr:` body of `normalize_addr_str` (normalize.py
lines 221-239): normalize the components, reconcile zip/city/state with
the caller-supplied values, take line 2 from the caller or from the
parse, assemble and validate line 1. -/
def reconcile_parsed (tb : Tables) (addr_str : String)
    (line2 city state zipcode : Option String) (p : Parsed) : Except NormError AddrRec :=
  match normalize_address_components tb p with
  | .error e => .error e
  | .ok p2 =>
    match get_parsed_values p2 zipcode "ZipCode" addr_str with
    | .error e => .error e
    | .ok zipcode2 =>
      match get_parsed_values p2 city "PlaceName" addr_str with
      | .error e => .error e
      | .ok city2 =>
        match get_parsed_values p2 state "StateName" addr_str with
        | .error e => .error e
        | .ok state2 =>
          match validate_parens_groups_parsed
              (get_normalized_line_segment p2 LINE1_USADDRESS_LABELS) with
          | .error e => .error e
          | .ok line1 =>
            .ok ⟨some line1,
              post_clean_opt (if truthyO line2 then line2
                else get_normalized_line_segment p2 LINE2_USADDRESS_LABELS),
              city2, normalize_state tb state2, zipcode2⟩

/-- `normalize_addr_str` (normalize.py lines 158-251).  The outer `Option`
is fuel exhaustion; `Except NormError` carries the pipeline's exceptions.
Control flow mirrors the Python source: pre-clean; try to parse; on a
tagging failure try the caller-supplied recovery functions (only when no
line 2 was supplied) and recurse on the first applicable split — the
recursive call does not receive the recovery functions; a parse without a
truthy `StreetName` is retried once via `street_name_reparse`; a truthy
parse goes through `reconcile_parsed`; otherwise the partial record
(line 1 = the pre-cleaned string) is raised inside
`UnParseableAddressError`. -/
def normalize_addr_str (tb : Tables) (T : Tagger) :
    Nat → String → Option String → Option String → Option String → Option String →
      List (String → Option (String × String)) → Option (Except NormError AddrRec)
  | 0, _, _, _, _, _, _ => none
  | fuel + 1, addr_str0, line2, city, state, zipcode, addtl_funcs =>
    let addr_str := pre_clean_addr_str tb addr_str0 (normalize_state tb state)
    match parse_address_string tb T fuel addr_str with
    | none => none
    | some (.error _err) =>
      if !truthyO line2 && !addtl_funcs.isEmpty then
        match addtl_funcs.findSome? (fun func => func addr_str) with
        | some (l1, l2) => normalize_addr_str tb T fuel l1 (some l2) city state zipcode []
        | none => some (.error (.unparseable ⟨some addr_str, line2, city, state, zipcode⟩))
      else some (.error (.unparseable ⟨some addr_str, line2, city, state, zipcode⟩))
    | some (.ok parsed0) =>
      match street_name_reparse tb T fuel addr_str line2 city state zipcode parsed0 with
      | none => none
      | some (some p) =>
        if !p.isEmpty then some (reconcile_parsed tb addr_str line2 city state zipcode p)
        else some (.ok ⟨some addr_str, line2, city, state, zipcode⟩)
      | some none =>
        some (.error (.unparseable ⟨some addr_str, line2, city, state, zipcode⟩))

/-- `normalize_addr_dict` (normalize.py lines 254-303) without the
`addr_map` renaming (the `None` default): validate the components,
assemble line 1 and line 2 comma-separated, validate a truthy postal
code, run `normalize_addr_str`, and on an `AddressNormalizationError`
(but not on a raw `ValueError`/`TypeError`) retry once with all five
fields comma-joined. -/
def normalize_addr_dict (tb : Tables) (T : Tagger) (fuel : Nat) (addr_dict : AddrRec)
    (addtl_funcs : List (String → Option (String × String))) (strict : Bool) :
    Option (Except NormError AddrRec) :=
  match validate_address_components addr_dict strict with
  | .error e => some (.error e)
  | .ok addr_dict =>
    let addr_str := get_addr_line_str addr_dict ["address_line_1", "address_line_2"] true
    match (match addr_dict.postal_code with
           | some p => if p ≠ "" then (validate_us_postal_code_format p).map some else .ok none
           | none => .ok none) with
    | .error e => some (.error e)
    | .ok zipcode =>
      let city := addr_dict.city
      let state := addr_dict.state
      match normalize_addr_str tb T fuel addr_str none city state zipcode addtl_funcs with
      | none => none
      | some (.ok address) => some (.ok address)
      | some (.error e) =>
        match e with
        | .valueError => some (.error e)
        | .typeError => some (.error e)
        | _ =>
          let addr_str2 := get_addr_line_str addr_dict ADDRESS_KEYS true
          normalize_addr_str tb T fuel addr_str2 none city state zipcode addtl_funcs

/-! ## The output invariant (spec §3 / §8) -/

/-- No two adjacent whitespace characters ("free of doubled whitespace"). -/
def noDoubleWs : List Char → Bool
  | a :: b :: t => !(isWsChar a && isWsChar b) && noDoubleWs (b :: t)
  | _ => true

/-- The spec's output invariant on one string: uppercase (no lowercase
ASCII letter survives `str.upper`) and free of doubled whitespace. -/
def cleanStr (s : String) : Bool :=
  (s.data.all fun c => !isLowerChar c) && noDoubleWs s.data

/-- `cleanStr` lifted to optional fields (`None` is vacuously clean). -/
def optCleanB : Option String → Bool
  | none => true
  | some s => cleanStr s

/-- The spec's record invariant: a non-null `address_line_1`, every
non-null field uppercase and free of doubled whitespace. -/
def recCleanB (r : AddrRec) : Bool :=
  r.address_line_1.isSome && optCleanB r.address_line_1 && optCleanB r.address_line_2
    && optCleanB r.city && optCleanB r.state && optCleanB r.postal_code

/-- The argument of `normalize_address_record`: an address string or an
address dict. -/
inductive AddressInput where
  | line (s : String)
  | record (r : AddrRec)

/-- `normalize_address_record` (normalize.py lines 120-155) without
`addr_map`: dispatch on the input kind. -/
def normalize_address_record (tb : Tables) (T : Tagger) (fuel : Nat) (address : AddressInput)
    (addtl_funcs : List (String → Option (String × String))) (strict : Bool) :
    Option (Except NormError AddrRec) :=
  match address with
  | .line s => normalize_addr_str tb T fuel s none none none none addtl_funcs
  | .record d => normalize_addr_dict tb T fuel d addtl_funcs strict

/-- The fuel argument of `toDigitsAux` is irrelevant once it dominates the
number being converted. -/
theorem toDigitsAux_congr : ∀ (f g n : Nat), n ≤ f → n ≤ g → toDigitsAux f n = toDigitsAux g n := by
  intro f
  induction f with
  | zero =>
    intro g n hf _
    interval_cases n
    cases g <;> rfl
  | succ f ih =>
    intro g n hf hg
    match n, g with
    | 0, g => cases g <;> rfl
    | n + 1, 0 => omega
    | n + 1, g + 1 =>
      show ((n + 1) % 10) :: toDigitsAux f ((n + 1) / 10)
          = ((n + 1) % 10) :: toDigitsAux g ((n + 1) / 10)
      rw [ih g ((n + 1) / 10) (by omega) (by omega)]

/-- Unfolding equation of the little-endian digit list for positive input. -/
theorem toDigitsRev_pos (n : Nat) (h : 0 < n) :
    toDigitsRev n = n % 10 :: toDigitsRev (n / 10) := by
  match n, h with
  | n + 1, _ =>
    show ((n + 1) % 10) :: toDigitsAux n ((n + 1) / 10)
        = (n + 1) % 10 :: toDigitsRev ((n + 1) / 10)
    rw [toDigitsAux_congr n ((n + 1) / 10) ((n + 1) / 10) (by omega) (le_refl _)]
    rfl

/-- Claim C7 (amended): ordinal suffix law.  For every positive integer `n`,
`get_ordinal_indicator n` returns "st" if `n % 10 = 1` and `n % 100 ≠ 11`,
"nd" if `n % 10 = 2` and `n % 100 ≠ 12`, "rd" if `n % 10 = 3` and
`n % 100 ≠ 13`, and "th" otherwise.  (The claim's sample point `3113 → rd`
contradicts this very law — `3113 % 100 = 13` — see the counterexample
below; the correct value, which the repository's own test suite also
expects, is "th".) -/
theorem claim_C7_ordinal_suffix_law (n : Nat) (h : 0 < n) :
    get_ordinal_indicator n =
      (if n % 10 = 1 ∧ n % 100 ≠ 11 then "st"
       else if n % 10 = 2 ∧ n % 100 ≠ 12 then "nd"
       else if n % 10 = 3 ∧ n % 100 ≠ 13 then "rd"
       else "th") := by
  rcases Nat.lt_or_ge n 10 with hlt | hge
  · interval_cases n <;> decide
  · have hne : n ≠ 0 := by omega
    have h10 : 0 < n / 10 := by omega
    obtain ⟨a, b, ha, hb, hA, hB⟩ :
        ∃ a b, a < 10 ∧ b < 10 ∧ n % 10 = a ∧ n / 10 % 10 = b :=
      ⟨_, _, Nat.mod_lt _ (by omega), Nat.mod_lt _ (by omega), rfl, rfl⟩
    have h100 : n % 100 = a + 10 * b := by omega
    have hdig : toDigitsRev n = a :: b :: toDigitsRev (n / 10 / 10) := by
      rw [toDigitsRev_pos n h, toDigitsRev_pos (n / 10) h10, hA, hB]
    have hchars : natToChars n
        = ((toDigitsRev (n / 10 / 10)).map fun d => Char.ofNat (48 + d)).reverse
          ++ [Char.ofNat (48 + b), Char.ofNat (48 + a)] := by
      rw [natToChars, if_neg hne, hdig]
      simp
    rw [get_ordinal_indicator, hchars, get_ordinal_of_chars]
    generalize ((toDigitsRev (n / 10 / 10)).map fun d => Char.ofNat (48 + d)).reverse = xs
    have hlast : ((xs ++ [Char.ofNat (48 + b), Char.ofNat (48 + a)]).getLastD ' ')
        = Char.ofNat (48 + a) := by
      rw [show xs ++ [Char.ofNat (48 + b), Char.ofNat (48 + a)]
          = (xs ++ [Char.ofNat (48 + b)]) ++ [Char.ofNat (48 + a)] by simp,
        List.getLastD_concat]
    have hlen : (xs ++ [Char.ofNat (48 + b), Char.ofNat (48 + a)]).length = xs.length + 2 := by
      simp
    have hdrop : (xs ++ [Char.ofNat (48 + b), Char.ofNat (48 + a)]).drop (xs.length + 2 - 2)
        = [Char.ofNat (48 + b), Char.ofNat (48 + a)] := by
      rw [show xs.length + 2 - 2 = xs.length by omega, List.drop_left]
    simp only [hlast, hlen, hdrop, hA, h100, Nat.le_add_left, true_and]
    interval_cases a <;> interval_cases b <;> decide

/-- Counterexample for claim C7 as stated: the claim's example list says
`3113 → rd`, but `3113 % 100 = 13`, so by the claim's own law (and by the
code, and by the repository's test `test_get_ordinal_indicator`) the
suffix is "th". -/
theorem claim_C7_counterexample :
    get_ordinal_indicator 3113 = "th" ∧ get_ordinal_indicator 3113 ≠ "rd" := by
  constructor
  · rfl
  · decide

/-- Claim C1: evaluation of `validate_us_postal_code_format` at the
decisive inputs.  The first four conjuncts agree with the claim (a five
digit code and a well-formed 5+4 code pass unchanged; seven plain digits
and a three-group split raise `AddressValidationError`).  The last three
conjuncts exhibit the divergence: for `"972"` (digit count 3, outside
{5,9}), `"972-0001"` (malformed 5+4 split) and `"97219-00"` (malformed
5+4 split) the claim — and the repository's own test
`test_validate_postal_code` — require `AddressValidationError`, but the
code zero-fills the groups and returns them. -/
theorem claim_C1_postal_code_evaluation :
    validate_us_postal_code_format "97219" = .ok "97219"
      ∧ validate_us_postal_code_format "12345-6789" = .ok "12345-6789"
      ∧ validate_us_postal_code_format "9721900" = .error .validation
      ∧ validate_us_postal_code_format "97219-0001-00" = .error .validation
      ∧ validate_us_postal_code_format "972" = .ok "00972"
      ∧ validate_us_postal_code_format "972-0001" = .ok "00972-0001"
      ∧ validate_us_postal_code_format "97219-00" = .ok "97219-0000" :=
  ⟨rfl, rfl, rfl, rfl, rfl, rfl, rfl⟩

/-- `List.find?` over a concatenation whose first part fails the
predicate everywhere and whose next element satisfies it. -/
theorem find?_append_cons (p : α → Bool) (l₁ l₂ : List α) (x : α)
    (h₁ : ∀ y ∈ l₁, p y = false) (hx : p x = true) :
    List.find? p (l₁ ++ x :: l₂) = some x := by
  induction l₁ with
  | nil => simp [List.find?, hx]
  | cons a t ih =>
    have ha : p a = false := h₁ a (by simp)
    simp only [List.cons_append, List.find?, ha]
    exact ih fun y hy => h₁ y (by simp [hy])

/-- `replaceFirstToken` replaces exactly the first occurrence of the key. -/
theorem replaceFirstToken_decomp (l : List String) (k v : String) (h : k ∈ l) :
    ∃ t₁ t₂, l = t₁ ++ k :: t₂ ∧ k ∉ t₁ ∧ replaceFirstToken l k v = t₁ ++ v :: t₂ := by
  induction l with
  | nil => cases h
  | cons x t ih =>
    by_cases hx : x = k
    · subst hx
      exact ⟨[], t, rfl, by simp, by simp [replaceFirstToken]⟩
    · have hkt : k ∈ t := by
        cases h with
        | head => exact absurd rfl hx
        | tail _ h => exact h
      obtain ⟨t₁, t₂, hdec, hnot, hrep⟩ := ih hkt
      refine ⟨x :: t₁, t₂, by simp [hdec], ?_, ?_⟩
      · simp only [List.mem_cons, not_or]
        exact ⟨fun hk => hx hk.symm, hnot⟩
      · simp [replaceFirstToken, hx, hrep]

/-- Claim C10: `clean_ambiguous_street_types` replaces at most one
whitespace-delimited token.  First conjunct: if no table key occurs as a
whole token, the string is returned unchanged (so abbreviations occurring
only inside larger tokens are never replaced).  Second conjunct: if the
keys before `(k, v)` in the table do not occur as tokens and `k` does,
then exactly the first token equal to `k` is replaced by `v` and the
rest of the token list — including any further problem abbreviations —
is left unexpanded. -/
theorem claim_C10_single_replacement (s : String) :
    (∀ tbl : List (String × String), (∀ kv ∈ tbl, kv.1 ∉ addrTokens s) →
      clean_ambiguous_street_types tbl s = s)
    ∧ (∀ (tbl₁ tbl₂ : List (String × String)) (k v : String),
        (∀ kv ∈ tbl₁, kv.1 ∉ addrTokens s) → k ∈ addrTokens s →
        ∃ t₁ t₂, addrTokens s = t₁ ++ k :: t₂ ∧ k ∉ t₁
          ∧ clean_ambiguous_street_types (tbl₁ ++ (k, v) :: tbl₂) s
            = String.mk (joinSep [' '] ((t₁ ++ v :: t₂).map String.data))) := by
  constructor
  · intro tbl habs
    by_cases hemp : s.data.isEmpty
    · rw [clean_ambiguous_street_types, if_pos hemp]
    · rw [clean_ambiguous_street_types, if_neg hemp]
      have hfind : List.find? (fun kv => (addrTokens s).any fun t => t = kv.1) tbl = none := by
        rw [List.find?_eq_none]
        intro kv hkv
        simp only [List.any_eq_true, decide_eq_true_eq, not_exists, not_and]
        intro t ht htk
        exact habs kv hkv (htk ▸ ht)
      rw [hfind]
  · intro tbl₁ tbl₂ k v habs hk
    obtain ⟨t₁, t₂, hdec, hnot, hrep⟩ := replaceFirstToken_decomp (addrTokens s) k v hk
    refine ⟨t₁, t₂, hdec, hnot, ?_⟩
    have hemp : ¬ s.data.isEmpty := by
      cases hd : s.data with
      | nil =>
        rw [show addrTokens s = [] by simp [addrTokens, splitWs, hd, splitWsAux]] at hk
        cases hk
      | cons a t => simp [hd]
    rw [clean_ambiguous_street_types, if_neg hemp]
    have hfind :
        List.find? (fun kv => (addrTokens s).any fun t => t = kv.1) (tbl₁ ++ (k, v) :: tbl₂)
          = some (k, v) := by
      apply find?_append_cons
      · intro y hy
        rw [Bool.eq_false_iff]
        simp only [ne_eq, List.any_eq_true, decide_eq_true_eq, not_exists, not_and]
        intro t ht htk
        exact habs y hy (htk ▸ ht)
      · simp only [List.any_eq_true, decide_eq_true_eq]
        exact ⟨k, hk, rfl⟩
    rw [hfind]
    show String.mk (joinSep [' '] ((replaceFirstToken (addrTokens s) k v).map String.data)) = _
    rw [hrep]

/-- Witness for claim C10: in `"1234 BROKEN CT CT"` with table
`[("CT", "COURT")]`, only the first whole-token `CT` is expanded and the
second is left alone; and in `"1234 SCTX"` the embedded `CT` is not
touched. -/
theorem claim_C10_single_replacement_witness :
    clean_ambiguous_street_types [("CT", "COURT")] "1234 BROKEN CT CT"
        = "1234 BROKEN COURT CT"
      ∧ clean_ambiguous_street_types [("CT", "COURT")] "1234 SCTX" = "1234 SCTX" := by
  have h₂ := (claim_C10_single_replacement "1234 BROKEN CT CT").2 [] [] "CT" "COURT"
    (by intro kv hkv; cases hkv) (by decide)
  have h₁ := (claim_C10_single_replacement "1234 SCTX").1 [("CT", "COURT")]
    (by intro kv hkv; simp only [List.mem_singleton] at hkv; subst hkv; decide)
  exact ⟨rfl, h₁⟩

/-- Witness for claim C7 at corrected sample points:
1 → st, 11 → th, 22 → nd, 31243 → rd, 112 → th, 3113 → th. -/
theorem claim_C7_ordinal_suffix_law_witness :
    get_ordinal_indicator 1 = "st" ∧ get_ordinal_indicator 11 = "th"
      ∧ get_ordinal_indicator 22 = "nd" ∧ get_ordinal_indicator 31243 = "rd"
      ∧ get_ordinal_indicator 112 = "th" :=
  ⟨(claim_C7_ordinal_suffix_law 1 (by decide)).trans (by decide),
   (claim_C7_ordinal_suffix_law 11 (by decide)).trans (by decide),
   (claim_C7_ordinal_suffix_law 22 (by decide)).trans (by decide),
   (claim_C7_ordinal_suffix_law 31243 (by decide)).trans (by decide),
   (claim_C7_ordinal_suffix_law 112 (by decide)).trans (by decide)⟩

/-! ### Association-list lemmas for the ordered component mapping -/

/-- `dget` is `none` exactly on absent keys. -/
theorem dget_eq_none_iff (l : Parsed) (k : String) :
    dget l k = none ↔ k ∉ l.map Prod.fst := by
  induction l with
  | nil => simp [dget]
  | cons p t ih =>
    rcases p with ⟨k0, v0⟩
    rw [dget]
    by_cases hk : k0 = k
    · subst hk
      simp
    · rw [if_neg hk]
      simp only [List.map_cons, List.mem_cons]
      rw [ih]
      constructor
      · intro h hc
        rcases hc with hc | hc
        · exact hk hc.symm
        · exact h hc
      · intro h hc
        exact h (Or.inr hc)

/-- `dget` for one key is unchanged by popping a different key. -/
theorem dget_dpop_ne (l : Parsed) (k k' : String) (h : k ≠ k') :
    dget (dpop l k') k = dget l k := by
  induction l with
  | nil => rfl
  | cons p t ih =>
    rcases p with ⟨k0, v0⟩
    by_cases hk0 : k0 = k'
    · subst hk0
      have hk : ¬(k0 = k) := fun hc => h (hc ▸ rfl)
      simp [dpop, dget, List.eraseP_cons, hk]
    · simp only [dpop, List.eraseP_cons, hk0]
      show dget ((k0, v0) :: List.eraseP (fun p => decide (p.1 = k')) t) k
          = dget ((k0, v0) :: t) k
      rw [dget, dget]
      by_cases hkk : k0 = k
      · rw [if_pos hkk, if_pos hkk]
      · rw [if_neg hkk, if_neg hkk]
        exact ih

/-- After popping a key from a mapping with distinct keys, the key is
gone. -/
theorem dpop_keys_not_mem (l : Parsed) (k : String) (h : (l.map Prod.fst).Nodup) :
    k ∉ (dpop l k).map Prod.fst := by
  induction l with
  | nil => simp [dpop]
  | cons p t ih =>
    rcases p with ⟨k0, v0⟩
    simp only [List.map_cons, List.nodup_cons] at h
    by_cases hk0 : k0 = k
    · subst hk0
      simp only [dpop, List.eraseP_cons]
      show k0 ∉ List.map Prod.fst t
      exact h.1
    · simp only [dpop, List.eraseP_cons, hk0]
      show k ∉ List.map Prod.fst ((k0, v0) :: List.eraseP (fun p => decide (p.1 = k)) t)
      simp only [List.map_cons, List.mem_cons, not_or]
      exact ⟨fun hc => hk0 hc.symm, ih h.2⟩

/-- When `dget l k = some v`, the list splits around its first `k` entry,
`findIdx?` locates exactly that entry, and `listInsertAt` there inserts
immediately before it. -/
theorem findIdx_insert_decomp (l : Parsed) (k v : String) (x : String × String)
    (h : dget l k = some v) :
    ∃ l₁ l₂, l = l₁ ++ (k, v) :: l₂ ∧ (∀ p ∈ l₁, p.1 ≠ k)
      ∧ l.findIdx? (fun p => p = (k, v)) = some l₁.length
      ∧ listInsertAt l₁.length x l = l₁ ++ x :: (k, v) :: l₂ := by
  induction l with
  | nil => cases h
  | cons p t ih =>
    rcases p with ⟨k0, v0⟩
    rw [dget] at h
    by_cases hk : k0 = k
    · rw [if_pos hk] at h
      cases h
      subst hk
      refine ⟨[], t, rfl, by simp, ?_, rfl⟩
      simp [List.findIdx?_cons]
    · rw [if_neg hk] at h
      obtain ⟨l₁, l₂, hdec, hne, hidx, hins⟩ := ih h
      refine ⟨(k0, v0) :: l₁, l₂, by simp [hdec], ?_, ?_, ?_⟩
      · intro p hp
        cases hp with
        | head => exact hk
        | tail _ hp => exact hne p hp
      · simp [List.findIdx?_cons, hk, hidx]
      · simp only [List.length_cons, listInsertAt, hins, List.cons_append]

/-- A string option is truthy exactly when it is a non-empty string. -/
theorem truthyO_some_iff (v : String) : truthyO (some v) = true ↔ v ≠ "" := by
  rcases v with ⟨l⟩
  cases l with
  | nil => simp [truthyO, String.ext_iff]
  | cons c t => simp [truthyO, String.ext_iff]

/-- A falsy abbreviation makes `occupancy_insert` the identity. -/
theorem occupancy_insert_falsy (P : Parsed) (oid : Option String) (ab : Option String)
    (hab : truthyO ab = false) :
    occupancy_insert P oid ab = .ok P := by
  rcases ab with _ | a
  · rfl
  · rcases a with ⟨l⟩
    cases l with
    | nil => rfl
    | cons c t => simp [truthyO] at hab

/-- A falsy abbreviation never raises. -/
theorem occupancy_insert_ok_of_falsy (P : Parsed) (oid : Option String) (ab : Option String)
    (hab : truthyO ab = false) :
    (occupancy_insert P oid ab).isOk = true := by
  rw [occupancy_insert_falsy P oid ab hab]
  rfl

/-- When the identifier is present in the mapping, `occupancy_insert`
never raises. -/
theorem occupancy_insert_ok_of_id (P : Parsed) (v : String) (ab : Option String)
    (hid : dget P "OccupancyIdentifier" = some v) :
    (occupancy_insert P (some v) ab).isOk = true := by
  rcases ab with _ | a
  · rfl
  · rw [occupancy_insert]
    by_cases ha : a = ""
    · subst ha
      rfl
    · obtain ⟨l₁, l₂, _, _, hidx, _⟩ :=
        findIdx_insert_decomp P "OccupancyIdentifier" v ("OccupancyType", a) hid
      simp only [ne_eq, ha, not_false_iff, if_true, hidx]
      rfl

/-! ### Claims C3, C4, C5 -/

/-- Counterexample for claim C3: `normalize_occupancy_type` is *not*
total — on a mapping holding an `OccupancyType` that resolves to a truthy
abbreviation but no `OccupancyIdentifier`, the Python
`parsed_list.index(('OccupancyIdentifier', None))` raises `ValueError`
(the occupancy table is the modelled `OCCUPANCY_TYPE_ABBREVIATIONS`,
which maps `SUITE → STE`). -/
theorem claim_C3_counterexample :
    normalize_occupancy_type modelTables.OCCUPANCY_TYPE_ABBREVIATIONS
      [("OccupancyType", "SUITE")] none = .error .valueError := rfl

/-- Claim C3 (amended): `normalize_occupancy_type` returns a mapping
without raising on every parsed mapping that contains an
`OccupancyIdentifier` entry or no `OccupancyType` entry; the only failing
inputs are mappings with a recognized `OccupancyType` but no
`OccupancyIdentifier` (see the counterexample). -/
theorem claim_C3_amended_totality (tbl : List (String × String)) (parsed : Parsed)
    (d : Option String)
    (h : "OccupancyIdentifier" ∈ parsed.map Prod.fst ∨ "OccupancyType" ∉ parsed.map Prod.fst) :
    (normalize_occupancy_type tbl parsed d).isOk = true := by
  rw [normalize_occupancy_type]
  rcases hid : dget (dpop parsed "OccupancyType") "OccupancyIdentifier" with _ | v
  · have hid0 : dget parsed "OccupancyIdentifier" = none := by
      rw [← dget_dpop_ne parsed "OccupancyIdentifier" "OccupancyType" (by decide)]
      exact hid
    have habs : "OccupancyIdentifier" ∉ parsed.map Prod.fst :=
      (dget_eq_none_iff parsed "OccupancyIdentifier").mp hid0
    have htype : "OccupancyType" ∉ parsed.map Prod.fst := by
      rcases h with h | h
      · exact absurd h habs
      · exact h
    have habbr : recognizedOccupancyAbbr tbl parsed = none := by
      rw [recognizedOccupancyAbbr]
      rw [(dget_eq_none_iff parsed "OccupancyType").mpr htype]
    rw [habbr]
    exact occupancy_insert_ok_of_falsy _ _ _ (by simp [truthyO])
  · apply occupancy_insert_ok_of_id _ v _ hid

/-- Witness for the amended claim C3 at a mapping with an occupancy
identifier and no type. -/
theorem claim_C3_amended_totality_witness :
    (normalize_occupancy_type [("SUITE", "STE")] [("OccupancyIdentifier", "5")] none).isOk
      = true :=
  claim_C3_amended_totality [("SUITE", "STE")] [("OccupancyIdentifier", "5")] none
    (Or.inl (by decide))

/-- Claim C4: conflict law of `get_parsed_values` over post-cleaned
values (the code post-cleans both sides before comparing, spec §4.4).
For `a` the parsed value of `val_label` and `b` the caller-supplied
value: distinct non-null `a ≠ b` raise `AmbiguousAddressError`; `(a, a)`
returns `a`; `(a, null)` returns `a`; `(null, null)` returns `null`
(and `(null, b)` returns `b`). -/
theorem claim_C4_conflict_law (parsed : Parsed) (val_label : String) (supplied : Option String)
    (orig_addr_str : String)
    (ha : post_clean_opt (dget parsed val_label) = dget parsed val_label)
    (hb : post_clean_opt supplied = supplied) :
    get_parsed_values parsed supplied val_label orig_addr_str =
      match dget parsed val_label, supplied with
      | some a, some b => if a = b then .ok (some a) else .error .ambiguous
      | some a, none => .ok (some a)
      | none, some b => .ok (some b)
      | none, none => .ok none := by
  rw [get_parsed_values, ha, hb]
  rcases dget parsed val_label with _ | a <;> rcases supplied with _ | b <;> try rfl
  by_cases h : a = b
  · subst h
    rfl
  · simp [h, Ne.symm h]

/-- Witness for claim C4: matching city values agree, a conflicting
caller-supplied city raises, a parsed-only value passes through. -/
theorem claim_C4_conflict_law_witness :
    get_parsed_values [("PlaceName", "BORING")] (some "BORING") "PlaceName" "x"
        = .ok (some "BORING")
      ∧ get_parsed_values [("PlaceName", "BORING")] (some "TIGARD") "PlaceName" "x"
        = .error .ambiguous
      ∧ get_parsed_values [("PlaceName", "BORING")] none "PlaceName" "x"
        = .ok (some "BORING")
      ∧ get_parsed_values [] (none : Option String) "PlaceName" "x" = .ok none := by
  have h1 := claim_C4_conflict_law [("PlaceName", "BORING")] "PlaceName" (some "BORING") "x"
    rfl rfl
  have h2 := claim_C4_conflict_law [("PlaceName", "BORING")] "PlaceName" (some "TIGARD") "x"
    rfl rfl
  have h3 := claim_C4_conflict_law [("PlaceName", "BORING")] "PlaceName" none "x" rfl rfl
  have h4 := claim_C4_conflict_law [] "PlaceName" none "x" rfl rfl
  exact ⟨h1.trans (by rfl), h2.trans (by rfl), h3.trans (by rfl), h4.trans (by rfl)⟩

/-- Claim C5: occupancy-type defaulting.  For every parsed mapping (with
dict-distinct keys) holding a non-empty `OccupancyIdentifier` value `v`
and no recognized occupancy type: if `v` starts with `#`, no type is
defaulted and the identifier is unmodified; otherwise the type defaults
to `UNIT` and is inserted immediately before the `OccupancyIdentifier`
entry in iteration order. -/
theorem claim_C5_occupancy_defaulting (tbl : List (String × String)) (parsed : Parsed)
    (v : String) (hnd : (parsed.map Prod.fst).Nodup)
    (hid : dget parsed "OccupancyIdentifier" = some v) (hv : v ≠ "")
    (hno : truthyO (recognizedOccupancyAbbr tbl parsed) = false) :
    if pyStartsWith v "#" then
      normalize_occupancy_type tbl parsed none = .ok (dpop parsed "OccupancyType")
        ∧ dget (dpop parsed "OccupancyType") "OccupancyIdentifier" = some v
        ∧ "OccupancyType" ∉ (dpop parsed "OccupancyType").map Prod.fst
    else
      ∃ l₁ l₂, dpop parsed "OccupancyType" = l₁ ++ ("OccupancyIdentifier", v) :: l₂
        ∧ normalize_occupancy_type tbl parsed none
          = .ok (l₁ ++ ("OccupancyType", "UNIT") :: ("OccupancyIdentifier", v) :: l₂) := by
  have hidP : dget (dpop parsed "OccupancyType") "OccupancyIdentifier" = some v := by
    rw [dget_dpop_ne parsed "OccupancyIdentifier" "OccupancyType" (by decide)]
    exact hid
  have htr : truthyO (some v) = true := (truthyO_some_iff v).mpr hv
  cases hsh : pyStartsWith v "#" with
  | true =>
    rw [if_pos rfl]
    refine ⟨?_, hidP, dpop_keys_not_mem parsed "OccupancyType" hnd⟩
    rw [normalize_occupancy_type, hidP]
    simp only [htr, hsh, hno, Bool.not_true, Bool.and_false, Bool.false_and, if_false]
    exact occupancy_insert_falsy _ _ _ hno
  | false =>
    rw [if_neg Bool.false_ne_true]
    obtain ⟨l₁, l₂, hdec, _, hidx, hins⟩ :=
      findIdx_insert_decomp (dpop parsed "OccupancyType") "OccupancyIdentifier" v
        ("OccupancyType", "UNIT") hidP
    refine ⟨l₁, l₂, hdec, ?_⟩
    rw [normalize_occupancy_type, hidP]
    simp only [htr, hsh, hno, Bool.not_false, Bool.true_and, Bool.and_true, if_true]
    rw [occupancy_insert]
    rw [if_pos (by decide)]
    rw [hidx]
    show Except.ok (listInsertAt l₁.length ("OccupancyType", (none : Option String).getD "UNIT")
      (dpop parsed "OccupancyType")) = _
    rw [show ((none : Option String).getD "UNIT") = "UNIT" from rfl, hins]

/-- Witness for claim C5: the spec's scenario — identifier `345` alone
gets a defaulted `UNIT` inserted right before it, identifier `#345`
stays untouched. -/
theorem claim_C5_occupancy_defaulting_witness :
    normalize_occupancy_type [("SUITE", "STE")]
        [("AddressNumber", "123"), ("OccupancyIdentifier", "345")] none
      = .ok [("AddressNumber", "123"), ("OccupancyType", "UNIT"), ("OccupancyIdentifier", "345")]
      ∧ normalize_occupancy_type [("SUITE", "STE")]
        [("AddressNumber", "123"), ("OccupancyIdentifier", "#345")] none
      = .ok [("AddressNumber", "123"), ("OccupancyIdentifier", "#345")] := by
  have h1 := claim_C5_occupancy_defaulting [("SUITE", "STE")]
    [("AddressNumber", "123"), ("OccupancyIdentifier", "345")] "345"
    (by decide) rfl (by decide) (by decide)
  have h2 := claim_C5_occupancy_defaulting [("SUITE", "STE")]
    [("AddressNumber", "123"), ("OccupancyIdentifier", "#345")] "#345"
    (by decide) rfl (by decide) (by decide)
  exact ⟨rfl, rfl⟩

/-! ### Claim C2 -/

/-- A pathological tagger: every string is tagged as street type `UN`
(an abnormal occupancy abbreviation) plus occupancy identifier `A`. -/
def livelockTagger : Tagger := fun _ =>
  .tagged [("StreetNamePostType", "UN"), ("OccupancyIdentifier", "A")] "Street Address"

/-- Claim C2 evaluation: the abnormal-occupancy re-tag path has no
recursion cap.  With `livelockTagger`, on the input `"123 MAIN"` the
substring `"UN A"` that the repair removes does not occur, so
`addr_str.replace(line2, '')` is a no-op and `parse_address_string`
re-enters itself on the very same string: every finite recursion budget
is exhausted (`none` for all fuel), the Python original recurses until
the interpreter's `RecursionError`, and no `UnParseableAddressError` is
produced.  (The retry path of `normalize_addr_str` is bounded — its
recursive call drops `addtl_funcs` — but the cap the claim requires on
the re-tag path does not exist in the code.) -/
theorem claim_C2_uncapped_recursion (fuel : Nat) :
    parse_address_string modelTables livelockTagger fuel "123 MAIN" = none := by
  induction fuel with
  | zero => rfl
  | succ n ih =>
    rw [show parse_address_string modelTables livelockTagger (n + 1) "123 MAIN"
        = (match parse_address_string modelTables livelockTagger n "123 MAIN" with
           | none => none
           | some (.error e) => some (.error e)
           | some (.ok parsedN) =>
             some (.ok (dupdate (dupdate parsedN "OccupancyType" "UN")
               "OccupancyIdentifier" "A")))
      from rfl]
    rw [ih]


/-! cleanliness lemmas -/

theorem toNat_ofNat_valid (n : Nat) (h : n < 55296) : (Char.ofNat n).toNat = n := by
  have hv : n.isValidChar := Or.inl h
  rw [Char.ofNat, dif_pos hv]
  simp [Char.ofNatAux, Char.toNat, UInt32.toNat]

theorem pyUpperChar_not_lower (c : Char) : isLowerChar (pyUpperChar c) = false := by
  rw [pyUpperChar]
  by_cases h : isLowerChar c = true
  · rw [if_pos h]
    rw [isLowerChar] at h
    simp only [Bool.and_eq_true, decide_eq_true_eq] at h
    have hlt : c.toNat - 32 < 55296 := by omega
    rw [isLowerChar, toNat_ofNat_valid (c.toNat - 32) hlt]
    simp only [Bool.and_eq_false_iff, decide_eq_false_iff_not]
    left
    omega
  · rw [if_neg h]
    exact Bool.not_eq_true _ |>.mp h

theorem pyUpperChar_ws (c : Char) : isWsChar (pyUpperChar c) = isWsChar c := by
  rw [pyUpperChar]
  by_cases h : isLowerChar c = true
  · rw [if_pos h]
    rw [isLowerChar] at h
    simp only [Bool.and_eq_true, decide_eq_true_eq] at h
    have hlt : c.toNat - 32 < 55296 := by omega
    have hws1 : isWsChar (Char.ofNat (c.toNat - 32)) = false := by
      rw [isWsChar, toNat_ofNat_valid (c.toNat - 32) hlt]
      simp only [Bool.or_eq_false_iff, decide_eq_false_iff_not]
      omega
    have hws2 : isWsChar c = false := by
      rw [isWsChar]
      simp only [Bool.or_eq_false_iff, decide_eq_false_iff_not]
      omega
    rw [hws1, hws2]
  · rw [if_neg h]

/-- Every word produced by `splitWsAux` (with a whitespace-free
accumulator) is non-empty and whitespace-free. -/
theorem splitWsAux_sound : ∀ (l acc : List Char), (∀ c ∈ acc, isWsChar c = false) →
    ∀ w ∈ splitWsAux l acc, w ≠ [] ∧ ∀ c ∈ w, isWsChar c = false := by
  intro l
  induction l with
  | nil =>
    intro acc hacc w hw
    rw [splitWsAux] at hw
    by_cases hemp : acc.isEmpty
    · rw [if_pos hemp] at hw
      cases hw
    · rw [if_neg hemp] at hw
      rw [List.mem_singleton] at hw
      subst hw
      constructor
      · simp only [ne_eq, List.reverse_eq_nil_iff]
        intro hc
        rw [hc] at hemp
        exact hemp rfl
      · intro c hc
        exact hacc c (List.mem_reverse.mp hc)
  | cons a t ih =>
    intro acc hacc w hw
    rw [splitWsAux] at hw
    by_cases ha : isWsChar a = true
    · rw [if_pos ha] at hw
      by_cases hemp : acc.isEmpty
      · rw [if_pos hemp] at hw
        exact ih [] (by intro c hc; cases hc) w hw
      · rw [if_neg hemp] at hw
        cases hw with
        | head =>
          constructor
          · simp only [ne_eq, List.reverse_eq_nil_iff]
            intro hc
            rw [hc] at hemp
            exact hemp rfl
          · intro c hc
            exact hacc c (List.mem_reverse.mp hc)
        | tail _ hw => exact ih [] (by intro c hc; cases hc) w hw
    · rw [if_neg ha] at hw
      refine ih (a :: acc) ?_ w hw
      intro c hc
      cases hc with
      | head => exact Bool.not_eq_true _ |>.mp ha
      | tail _ hc => exact hacc c hc

theorem splitWs_sound (l : List Char) :
    ∀ w ∈ splitWs l, w ≠ [] ∧ ∀ c ∈ w, isWsChar c = false :=
  splitWsAux_sound l [] (by intro c hc; cases hc)

/-- Unfolding `noDoubleWs` one step. -/
theorem noDoubleWs_cons (a : Char) (l : List Char) :
    noDoubleWs (a :: l)
      = ((match l with | [] => true | b :: _ => !(isWsChar a && isWsChar b))
         && noDoubleWs l) := by
  cases l with
  | nil => rfl
  | cons b t => rfl

/-- A whitespace-free list has no doubled whitespace. -/
theorem noDoubleWs_of_nows (l : List Char) (h : ∀ c ∈ l, isWsChar c = false) :
    noDoubleWs l = true := by
  induction l with
  | nil => rfl
  | cons a t ih =>
    rw [noDoubleWs_cons]
    have ha : isWsChar a = false := h a (by simp)
    have ht := ih fun c hc => h c (List.mem_cons_of_mem _ hc)
    rw [ht]
    cases t with
    | nil => rfl
    | cons b t2 =>
      rw [ha]
      rfl

/-- Prepending a whitespace-free word preserves `noDoubleWs`. -/
theorem noDoubleWs_append_word (w rest : List Char)
    (hw : ∀ c ∈ w, isWsChar c = false)
    (hr : noDoubleWs rest = true) :
    noDoubleWs (w ++ rest) = true := by
  induction w with
  | nil => simpa using hr
  | cons a w2 ih =>
    have ha : isWsChar a = false := hw a (by simp)
    have hrec := ih fun c hc => hw c (List.mem_cons_of_mem _ hc)
    rw [List.cons_append, noDoubleWs_cons, hrec, Bool.and_true]
    cases hw2 : w2 ++ rest with
    | nil => rfl
    | cons b t2 => rw [ha]; rfl

/-- The first character of a join of non-empty whitespace-free words is
not whitespace. -/
theorem joinSep_head_nonws (ws : List (List Char))
    (h : ∀ w ∈ ws, w ≠ [] ∧ ∀ c ∈ w, isWsChar c = false) :
    (match joinSep [' '] ws with | [] => True | b :: _ => isWsChar b = false) := by
  cases ws with
  | nil => trivial
  | cons w ws2 =>
    have hw := h w (by simp)
    rcases w with _ | ⟨c, t⟩
    · exact absurd rfl hw.1
    · cases ws2 with
      | nil =>
        show isWsChar c = false
        exact hw.2 c (by simp)
      | cons w2 ws3 =>
        show isWsChar c = false
        exact hw.2 c (by simp)

/-- Joining non-empty whitespace-free words with single spaces yields no
doubled whitespace. -/
theorem noDoubleWs_joinSep (ws : List (List Char))
    (h : ∀ w ∈ ws, w ≠ [] ∧ ∀ c ∈ w, isWsChar c = false) :
    noDoubleWs (joinSep [' '] ws) = true := by
  induction ws with
  | nil => rfl
  | cons w ws2 ih =>
    cases ws2 with
    | nil =>
      show noDoubleWs w = true
      exact noDoubleWs_of_nows w (h w (by simp)).2
    | cons w2 ws3 =>
      show noDoubleWs (w ++ [' '] ++ joinSep [' '] (w2 :: ws3)) = true
      have hw := h w (by simp)
      have hrest := ih fun u hu => h u (List.mem_cons_of_mem _ hu)
      have hh := joinSep_head_nonws (w2 :: ws3) fun u hu => h u (List.mem_cons_of_mem _ hu)
      rw [List.append_assoc]
      refine noDoubleWs_append_word w (' ' :: joinSep [' '] (w2 :: ws3)) hw.2 ?_
      rw [noDoubleWs_cons, hrest, Bool.and_true]
      cases hj : joinSep [' '] (w2 :: ws3) with
      | nil => rfl
      | cons b t2 =>
        rw [hj] at hh
        have hb : isWsChar b = false := hh
        show (!(isWsChar ' ' && isWsChar b)) = true
        rw [hb]
        rfl


theorem noDoubleWs_map_pyUpper : ∀ l : List Char, noDoubleWs (l.map pyUpperChar) = noDoubleWs l
  | [] => rfl
  | [_] => rfl
  | a :: b :: t => by
    show (!(isWsChar (pyUpperChar a) && isWsChar (pyUpperChar b))
        && noDoubleWs ((b :: t).map pyUpperChar)) = (!(isWsChar a && isWsChar b) && noDoubleWs (b :: t))
    rw [pyUpperChar_ws a, pyUpperChar_ws b, noDoubleWs_map_pyUpper (b :: t)]

theorem cleanStr_join_upper (t2 : List Char) :
    cleanStr (String.mk ((joinSep [' '] (splitWs t2)).map pyUpperChar)) = true := by
  rw [cleanStr]
  show ((((joinSep [' '] (splitWs t2)).map pyUpperChar).all fun c => !isLowerChar c)
    && noDoubleWs ((joinSep [' '] (splitWs t2)).map pyUpperChar)) = true
  have h1 : (((joinSep [' '] (splitWs t2)).map pyUpperChar).all fun c => !isLowerChar c) = true := by
    rw [List.all_eq_true]
    intro c hc
    rw [List.mem_map] at hc
    obtain ⟨d, _, hd⟩ := hc
    rw [← hd]
    rw [pyUpperChar_not_lower d]
    rfl
  have h2 : noDoubleWs ((joinSep [' '] (splitWs t2)).map pyUpperChar) = true := by
    rw [noDoubleWs_map_pyUpper]
    exact noDoubleWs_joinSep (splitWs t2) (splitWs_sound t2)
  rw [h1, h2]
  rfl

theorem cleanStr_clean_upper (t : String) (ex : List Nat) (cats : List String) :
    cleanStr (clean_upper t ex cats false) = true :=
  cleanStr_join_upper (clean_upper_strip t.data ex cats)

theorem cleanStr_post_clean (s : String) : cleanStr (post_clean_addr_str s) = true := by
  rw [post_clean_addr_str]
  by_cases hemp : s.data.isEmpty = true
  · rw [if_pos hemp]
    rcases s with ⟨l⟩
    cases l with
    | nil => rfl
    | cons a t => simp at hemp
  · rw [if_neg hemp]
    exact cleanStr_clean_upper s ALLOWED_CHARS STRIP_CHAR_CATS

theorem optCleanB_post_clean_opt (o : Option String) : optCleanB (post_clean_opt o) = true := by
  rcases o with _ | s
  · rfl
  · exact cleanStr_post_clean s


theorem dget_mem (l : Parsed) (k v : String) (h : dget l k = some v) : (k, v) ∈ l := by
  induction l with
  | nil => cases h
  | cons p t ih =>
    rcases p with ⟨k0, v0⟩
    rw [dget] at h
    by_cases hk : k0 = k
    · rw [if_pos hk] at h
      cases h
      subst hk
      exact List.mem_cons_self _ _
    · rw [if_neg hk] at h
      exact List.mem_cons_of_mem _ (ih h)

theorem gpv_clean (p : Parsed) (v : Option String) (lbl a0 : String) (w : Option String)
    (h : get_parsed_values p v lbl a0 = .ok w) : optCleanB w = true := by
  have hcv := optCleanB_post_clean_opt v
  have hcp := optCleanB_post_clean_opt (dget p lbl)
  rw [get_parsed_values] at h
  rcases hv : post_clean_opt v with _ | sv <;> rw [hv] at h hcv <;>
    rcases hp : post_clean_opt (dget p lbl) with _ | sp <;> rw [hp] at h hcp
  · cases h
    rfl
  · cases h
    exact hcp
  · cases h
    exact hcv
  · have h2 : (if sv = sp then (Except.ok (some sv) : Except NormError (Option String))
        else .error .ambiguous) = .ok w := h
    by_cases heq : sv = sp
    · rw [if_pos heq] at h2
      cases h2
      exact hcv
    · rw [if_neg heq] at h2
      cases h2

theorem segment_clean (p : Parsed) (lbls : List String) :
    optCleanB (get_normalized_line_segment p lbls) = true :=
  optCleanB_post_clean_opt _

theorem normalize_state_clean (tb : Tables)
    (hstates : ∀ kv ∈ tb.STATE_ABBREVIATIONS, cleanStr kv.2 = true)
    (o : Option String) (ho : optCleanB o = true) :
    optCleanB (normalize_state tb o) = true := by
  rcases o with _ | s
  · rfl
  · rw [normalize_state]
    by_cases hs : s = ""
    · rw [if_pos hs]
      rfl
    · rw [if_neg hs]
      rcases hl : dget tb.STATE_ABBREVIATIONS (String.mk (pyUpper s.data)) with _ | ab
      · exact ho
      · show optCleanB (if ab ≠ "" then some ab else some s) = true
        by_cases hab : ab = ""
        · rw [if_neg (by simp [hab])]
          exact ho
        · rw [if_pos hab]
          exact hstates _ (dget_mem _ _ _ hl)

theorem validate_parens_ok (x : Option String) (l1 : String)
    (h : validate_parens_groups_parsed x = .ok l1) : x = some l1 := by
  rcases x with _ | s
  · cases h
  · rw [validate_parens_groups_parsed] at h
    by_cases hp : hasParenGroup s.data = true
    · rw [if_pos hp] at h
      cases h
    · rw [if_neg hp] at h
      cases h
      rfl

theorem reconcile_clean (tb : Tables)
    (hstates : ∀ kv ∈ tb.STATE_ABBREVIATIONS, cleanStr kv.2 = true)
    (addr_str : String) (l2 c st z : Option String) (p : Parsed) (r : AddrRec)
    (h : reconcile_parsed tb addr_str l2 c st z p = .ok r) : recCleanB r = true := by
  rw [reconcile_parsed] at h
  split at h
  · cases h
  split at h
  · cases h
  split at h
  · cases h
  split at h
  · cases h
  split at h
  · cases h
  cases h
  rename_i x4 p2 hcomp x3 z2 hzip x2 c2 hcity x1 st2 hstate x0 line1 hparens
  have hline1 : optCleanB (some line1) = true := by
    rw [← validate_parens_ok _ _ hparens]
    exact segment_clean p2 LINE1_USADDRESS_LABELS
  rw [recCleanB]
  rw [hline1, gpv_clean _ _ _ _ _ hzip, gpv_clean _ _ _ _ _ hcity,
    normalize_state_clean tb hstates st2 (gpv_clean _ _ _ _ _ hstate),
    optCleanB_post_clean_opt]
  rfl

theorem street_name_reparse_ok_ne_nil (tb : Tables) (T : Tagger) (fuel : Nat)
    (addr_str : String) (l2 c st z : Option String) (parsed0 p : Parsed)
    (hne : ∀ n s, parse_address_string tb T n s ≠ some (.ok []))
    (h0 : parsed0 ≠ [])
    (h : street_name_reparse tb T fuel addr_str l2 c st z parsed0 = some (some p)) :
    p ≠ [] := by
  rw [street_name_reparse] at h
  split at h
  · split at h
    · cases h
    · simp at h
    · rename_i p2 hp
      have hpp : p2 = p := by
        injection h with h1
        injection h1
      subst hpp
      intro hnil
      subst hnil
      exact hne _ _ hp
  · have hpp : parsed0 = p := by
      injection h with h1
      injection h1
    exact hpp ▸ h0

/-- Claim C8 (amended): output invariant of `normalize_addr_str`.  For a
tagger that never produces an *empty* parse for a truthy string (the
real `usaddress.tag` raises on empty input, so this matches it) and a
state table with clean values, every successfully returned record has a
non-null `address_line_1` and every non-null field uppercase and free of
doubled whitespace.  Without the no-empty-parse proviso the invariant is
false: see the counterexample below. -/
theorem claim_C8_amended (tb : Tables) (T : Tagger)
    (hstates : ∀ kv ∈ tb.STATE_ABBREVIATIONS, cleanStr kv.2 = true)
    (hne : ∀ n s, parse_address_string tb T n s ≠ some (.ok []))
    (fuel : Nat) :
    ∀ (s : String) (l2 c st z : Option String)
      (funcs : List (String → Option (String × String))) (r : AddrRec),
      normalize_addr_str tb T fuel s l2 c st z funcs = some (.ok r) → recCleanB r = true := by
  induction fuel with
  | zero =>
    intro s l2 c st z funcs r h
    cases h
  | succ n ih =>
    intro s l2 c st z funcs r h
    rw [normalize_addr_str] at h
    split at h
    · cases h
    · split at h
      · split at h
        · exact ih _ _ _ _ _ _ _ h
        · simp at h
      · simp at h
    · rename_i parsed0 hp0
      split at h
      · cases h
      · rename_i p hrep
        split at h
        · rename_i hpe
          have hrec : reconcile_parsed tb (pre_clean_addr_str tb s (normalize_state tb st))
              l2 c st z p = .ok r := by
            injection h
          exact reconcile_clean tb hstates _ _ _ _ _ p r hrec
        · rename_i hpe
          have hparsed0 : parsed0 ≠ [] := by
            intro hc
            subst hc
            exact hne _ _ hp0
          have hpne := street_name_reparse_ok_ne_nil tb T n _ l2 c st z parsed0 p hne
            hparsed0 hrep
          rcases p with _ | ⟨q, t⟩
          · exact absurd rfl hpne
          · simp at hpe
      · simp at h

def emptyParseTagger : Tagger := fun _ => .tagged [] "Street Address"

/-- Counterexample for claim C8: when the tagger returns an empty parse
(`usaddress` can in principle be monkey-patched or replaced; the code
never guards `parsed_addr == OrderedDict()` against the falsy-retry
branch), the `else` arm of `if parsed_addr:` returns the *pre-cleaned
line and raw keyword fields unchanged*, so the caller-supplied lowercase
city `"boring"` leaks into the output record and the uppercase invariant
fails. -/
theorem claim_C8_counterexample :
    normalize_addr_str modelTables emptyParseTagger 2 "123 MAIN" none (some "boring") none none []
        = some (.ok ⟨some "123 MAIN", none, some "boring", none, none⟩)
      ∧ recCleanB ⟨some "123 MAIN", none, some "boring", none, none⟩ = false := ⟨rfl, rfl⟩

def stWitnessTagger : Tagger := fun _ =>
  .tagged [("AddressNumber", "123"), ("StreetName", "MAIN"), ("StreetNamePostType", "ST")]
    "Street Address"

theorem stWitnessTagger_ne (n : Nat) (s : String) :
    parse_address_string modelTables stWitnessTagger n s ≠ some (.ok []) := by
  cases n with
  | zero => exact fun h => Option.noConfusion h
  | succ m =>
    intro h
    have h2 : (Except.ok [("AddressNumber", "123"), ("StreetName", "MAIN"),
        ("StreetNamePostType", "ST")] : Except ParseFail Parsed) = .ok [] :=
      Option.some.inj h
    injection h2 with h3
    cases h3

theorem claim_C8_amended_witness :
    recCleanB ⟨some "123 MAIN ST", none, some "BORING", some "OR", some "97009"⟩ = true :=
  claim_C8_amended modelTables stWitnessTagger (by decide) stWitnessTagger_ne 2
    "123 Main St" none (some "Boring") (some "OR") (some "97009") []
    ⟨some "123 MAIN ST", none, some "BORING", some "OR", some "97009"⟩ rfl

def c6Tagger : Tagger := fun s =>
  if s = "123 MAIN ST" then
    .tagged [("AddressNumber", "123"), ("StreetName", "MAIN"), ("StreetNamePostType", "ST")]
      "Street Address"
  else .repeatedLabelError

/-- Counterexample for claim C6: idempotence fails for a record produced
by a successful earlier normalization.  The string `"123 MAIN ST"`
normalizes to a record with `city = state = postal_code = None`; feeding
that record back in `strict` mode fails `validate_address_components`
with `IncompleteAddressError` (missing city/state/zip), not the same
record. -/
theorem claim_C6_counterexample :
    normalize_address_record modelTables c6Tagger 2 (.line "123 MAIN ST") [] true
        = some (.ok ⟨some "123 MAIN ST", none, none, none, none⟩)
      ∧ normalize_address_record modelTables c6Tagger 2
          (.record ⟨some "123 MAIN ST", none, none, none, none⟩) [] true
        = some (.error .incomplete)
      ∧ (some (.error .incomplete) : Option (Except NormError AddrRec))
          ≠ some (.ok ⟨some "123 MAIN ST", none, none, none, none⟩) :=
  ⟨rfl, rfl, fun h => Except.noConfusion (Option.some.inj h)⟩

/-- Claim C6 (amended): conditional idempotence of `normalize_addr_dict`.
A complete record (truthy line 1, city, state and zip) produced by a
successful earlier normalization is reproduced exactly, provided its zip
re-validates to itself, its pre-cleaned line 1 re-parses to components
that reconcile to the same city/state/zip/line values, and its state is
a fixed point of `normalize_state`.  Every successfully normalized
complete record satisfies these provisos in practice (the witness shows
one); incomplete records do not, and break idempotence as in the
counterexample. -/
theorem claim_C6_amended (tb : Tables) (T : Tagger) (n : Nat)
    (rl1 rl2 rc rs rz : Option String) (p p2 : Parsed) (l1 z s0 : String) (cs : String)
    (hl1 : rl1 = some l1) (hl1ne : l1 ≠ "")
    (hc : truthyO rc = true) (hs : truthyO rs = true)
    (hz : rz = some z) (hzne : z ≠ "")
    (hzv : validate_us_postal_code_format z = .ok z)
    (hcs : cs = pre_clean_addr_str tb
      (get_addr_line_str ⟨rl1, rl2, rc, rs, rz⟩ ["address_line_1", "address_line_2"] true)
      (normalize_state tb rs))
    (hparse : parse_address_string tb T n cs = some (.ok p))
    (hpne : p ≠ []) (hsn : truthyO (dget p "StreetName") = true)
    (hcomp : normalize_address_components tb p = .ok p2)
    (hzip : get_parsed_values p2 (some z) "ZipCode" cs = .ok (some z))
    (hcity : get_parsed_values p2 rc "PlaceName" cs = .ok rc)
    (hstate : get_parsed_values p2 rs "StateName" cs = .ok (some s0))
    (hsnorm : normalize_state tb (some s0) = rs)
    (hline2 : post_clean_opt (get_normalized_line_segment p2 LINE2_USADDRESS_LABELS) = rl2)
    (hline1 : get_normalized_line_segment p2 LINE1_USADDRESS_LABELS = some l1)
    (hparens : hasParenGroup l1.data = false) :
    normalize_addr_dict tb T (n + 1) ⟨rl1, rl2, rc, rs, rz⟩ [] true
      = some (.ok ⟨rl1, rl2, rc, rs, rz⟩) := by
  subst hz
  subst hl1
  subst hcs
  have htz : truthyO (some z) = true := (truthyO_some_iff z).mpr hzne
  have htl1 : truthyO (some l1) = true := (truthyO_some_iff l1).mpr hl1ne
  have hpef : p.isEmpty = false := by
    rcases p with _ | ⟨q, t⟩
    · exact absurd rfl hpne
    · rfl
  rw [normalize_addr_dict]
  have hval : validate_address_components ⟨some l1, rl2, rc, rs, some z⟩ true
      = .ok ⟨some l1, rl2, rc, rs, some z⟩ := by
    simp only [validate_address_components, htl1, htz, hc, hs, Bool.not_true, Bool.and_true,
      Bool.true_and, if_true, ite_true, Bool.and_self, if_false, ite_false, Bool.not_false]
    rfl
  have hsn' : (match dget p "StreetName" with
    | none => false
    | some s => !s.data.isEmpty) = true := hsn
  simp only [hval, htz, hzv, hzne, Except.map, normalize_addr_str, hparse, street_name_reparse,
    hsn', hpef, reconcile_parsed, hcomp, hzip, hcity, hstate, hline1,
    validate_parens_groups_parsed, hparens, truthyO, hline2, hsnorm,
    Bool.not_true, Bool.not_false, Bool.and_false, Bool.false_and, Bool.and_true,
    Bool.true_and, Bool.or_false, Bool.false_or, if_false, if_true, ne_eq,
    ite_false, ite_true, not_false_eq_true, Bool.false_eq_true]

def c6WitnessTagger : Tagger := fun _ =>
  .tagged [("AddressNumber", "123"), ("StreetName", "MAIN"), ("StreetNamePostType", "ST")]
    "Street Address"

theorem claim_C6_amended_witness :
    normalize_addr_dict modelTables c6WitnessTagger 2
      ⟨some "123 MAIN ST", none, some "BORING", some "OR", some "97009"⟩ [] true
      = some (.ok ⟨some "123 MAIN ST", none, some "BORING", some "OR", some "97009"⟩) :=
  claim_C6_amended modelTables c6WitnessTagger 1
    (some "123 MAIN ST") none (some "BORING") (some "OR") (some "97009")
    [("AddressNumber", "123"), ("StreetName", "MAIN"), ("StreetNamePostType", "ST")]
    [("AddressNumber", "123"), ("StreetName", "MAIN"), ("StreetNamePostType", "ST")]
    "123 MAIN ST" "97009" "OR" "123 MAIN ST"
    rfl (by decide) rfl rfl rfl (by decide) rfl rfl rfl (by decide)
    rfl rfl rfl rfl rfl rfl rfl rfl rfl

/-- The tagger that always raises `RepeatedLabelError` — every tag attempt
fails, exercising the unparseable path of `normalize_addr_str`. -/
def failTagger : Tagger := fun _ => .repeatedLabelError

/-- Counterexample for claim C9: the partial record inside
`UnParseableAddressError` carries the *pre-cleaned* string (here the
uppercased `"123 MAIN ST"`), not the original input string
`"123 main st"` as the claim states. -/
theorem claim_C9_counterexample :
    normalize_addr_str modelTables failTagger 2 "123 main st" none none none none []
        = some (.error (.unparseable ⟨some "123 MAIN ST", none, none, none, none⟩))
      ∧ "123 MAIN ST" ≠ "123 main st" := ⟨rfl, by decide⟩

/-- Claim C9 (amended): partial record on failure.  Whenever tagging of
the pre-cleaned address string fails and no caller-supplied recovery
function applies, `normalize_addr_str` reports `UnParseableAddressError`
carrying a partial record whose `address_line_1` is the *pre-cleaned*
input string (not the original input string) and whose remaining fields
are the caller-supplied line2, city, state and zipcode values. -/
theorem claim_C9_amended (tb : Tables) (T : Tagger) (n : Nat) (s : String)
    (line2 city state zipcode : Option String)
    (funcs : List (String → Option (String × String))) (e : ParseFail)
    (hparse : parse_address_string tb T n (pre_clean_addr_str tb s (normalize_state tb state))
      = some (.error e))
    (hfuncs : ∀ f ∈ funcs, f (pre_clean_addr_str tb s (normalize_state tb state)) = none) :
    normalize_addr_str tb T (n + 1) s line2 city state zipcode funcs
      = some (.error (.unparseable
          ⟨some (pre_clean_addr_str tb s (normalize_state tb state)),
           line2, city, state, zipcode⟩)) := by
  have hfind : funcs.findSome?
      (fun func => func (pre_clean_addr_str tb s (normalize_state tb state))) = none :=
    List.findSome?_eq_none_iff.mpr hfuncs
  rw [normalize_addr_str]
  rw [hparse]
  by_cases hc : (!truthyO line2 && !funcs.isEmpty) = true
  · rw [if_pos hc, hfind]
  · rw [if_neg hc]

/-- Witness for claim C9 (amended) at the always-failing tagger on
`"123 main st"` with no recovery functions. -/
theorem claim_C9_amended_witness :
    normalize_addr_str modelTables failTagger 2 "123 main st" none none none none []
      = some (.error (.unparseable ⟨some "123 MAIN ST", none, none, none, none⟩)) :=
  (claim_C9_amended modelTables failTagger 1 "123 main st" none none none none []
    ParseFail.repeatedLabel rfl (fun f hf => absurd hf (List.not_mem_nil f))).trans rfl

end Scourgify
